import Mathlib

/-!
Verification of the `elysia-csrf` CSRF-protection core against its
natural-language specification.

The repository ships two variants of the plugin (both embedded in
`src/FLOW.md`): variant A stores the per-request secret behind a
`getOrCreateSecret` closure and verifies tokens with a fixed-position
separator check (`verifyToken(secret, token, saltLength)`), while
variant B resolves the secret once at derive time, caches the minted
token, and verifies by splitting at the first `-` in the token
(`verifyToken(secret, token)`).

Strings are modelled as `List Char`; the SHA-256 digest from
`node:crypto` is an external primitive and is therefore a parameter
`dg : List Char → List Nat` (a byte list of length 32 in reality; none
of the proofs below depend on the digest values).  The cryptographic
random-byte source `crypto.randomBytes` is modelled as a byte stream
`rng : Nat → Nat` together with a cursor: `randomBytes(n)` reads the
next `n` bytes and advances the cursor.
-/

namespace ElysiaCsrf

/-- The 64-character standard base64 alphabet used by `Buffer.toString("base64")`. -/
def base64Alphabet : List Char :=
  "ABCDEFGHIJKLMNOPQRSTUVWXYZabcdefghijklmnopqrstuvwxyz0123456789+/".toList

/-- Character of the base64 alphabet at a 6-bit index. -/
def b64Char (n : Nat) : Char := base64Alphabet.getD n 'A'

/-- Standard base64 encoding of a byte list, with `=` padding, 3 bytes per
4-character group, as produced by `bytes.toString("base64")`. -/
def base64EncodeList : List Nat → List Char
  | [] => []
  | [b1] => [b64Char (b1 / 4), b64Char ((b1 % 4) * 16), '=', '=']
  | [b1, b2] =>
      [b64Char (b1 / 4), b64Char ((b1 % 4) * 16 + b2 / 16), b64Char ((b2 % 16) * 4), '=']
  | b1 :: b2 :: b3 :: rest =>
      b64Char (b1 / 4) :: b64Char ((b1 % 4) * 16 + b2 / 16) ::
      b64Char ((b2 % 16) * 4 + b3 / 64) :: b64Char (b3 % 64) :: base64EncodeList rest

/-- The character-level effect of `.replace(PLUS_GLOBAL_REGEXP, "-").replace(SLASH_GLOBAL_REGEXP, "_")`. -/
def urlSafeReplace (c : Char) : Char :=
  if c = '+' then '-' else if c = '/' then '_' else c

/-- The effect of `.replace(EQUAL_GLOBAL_REGEXP, "")`: drop every `=`. -/
def stripEquals (l : List Char) : List Char := l.filter (fun c => c ≠ '=')

/-- The full post-processing chain shared by `hash`, `randomString` and
`generateSecret`: base64-encode, `+`→`-`, `/`→`_`, drop `=`. -/
def urlSafeB64 (bs : List Nat) : List Char :=
  stripEquals ((base64EncodeList bs).map urlSafeReplace)

/-- `hash(str)`: SHA-256 digest of `str`, url-safe base64, padding stripped.
The digest itself is the abstract parameter `dg`. -/
def hash (dg : List Char → List Nat) (str : List Char) : List Char :=
  urlSafeB64 (dg str)

/-- `crypto.randomBytes(n)` starting at stream position `pos`: the next `n`
bytes of the stream. -/
def readBytes (rng : Nat → Nat) (pos n : Nat) : List Nat :=
  (List.range n).map (fun i => rng (pos + i) % 256)

/-- `Math.ceil(length * 0.75)` on natural numbers. -/
def bytesNeeded (length : Nat) : Nat := (3 * length + 3) / 4

/-- `randomString(length)`: `Math.ceil(length * 0.75)` random bytes,
base64 with `+`→`-`, `/`→`_`, `=` dropped, then `.slice(0, length)`. -/
def randomString (rng : Nat → Nat) (pos length : Nat) : List Char :=
  (urlSafeB64 (readBytes rng pos (bytesNeeded length))).take length

/-- `generateSecret(length)`: `length` random bytes through the same
url-safe base64 chain, not truncated. -/
def generateSecret (rng : Nat → Nat) (pos length : Nat) : List Char :=
  urlSafeB64 (readBytes rng pos length)

/-- `tokenize(secret, salt)` = `` `${salt}-${hash(`${salt}-${secret}`)}` ``. -/
def tokenize (dg : List Char → List Nat) (secret salt : List Char) : List Char :=
  salt ++ '-' :: hash dg (salt ++ '-' :: secret)

/-- The constant-time comparison accumulator:
`result |= token.charCodeAt(i) ^ expected.charCodeAt(i)` over all positions. -/
def xorAcc (a b : List Char) : Nat :=
  (a.zip b).foldl (fun acc p => acc ||| (p.1.toNat ^^^ p.2.toNat)) 0

/-- `token.indexOf("-")`, with `none` for the `-1` case. -/
def indexOfDash : List Char → Option Nat
  | [] => none
  | c :: rest => if c = '-' then some 0 else (indexOfDash rest).map (fun i => i + 1)

/-- Variant A `verifyToken(secret, token, saltLength)`: requires the `-`
separator at the fixed position `saltLength`. -/
def verifyTokenA (dg : List Char → List Nat) (secret token : List Char)
    (saltLength : Nat) : Bool :=
  if secret = [] then false
  else if token = [] then false
  else if token.length < saltLength + 1 then false
  else if token.get? saltLength ≠ some '-' then false
  else
    let salt := token.take saltLength
    let expected := tokenize dg secret salt
    if token.length ≠ expected.length then false
    else xorAcc token expected = 0

/-- Variant B `verifyToken(secret, token)`: splits at the first `-` in the
token. -/
def verifyTokenB (dg : List Char → List Nat) (secret token : List Char) : Bool :=
  if secret = [] then false
  else if token = [] then false
  else
    match indexOfDash token with
    | none => false
    | some index =>
      let salt := token.take index
      let expected := tokenize dg secret salt
      if token.length ≠ expected.length then false
      else xorAcc token expected = 0

/-- JS truthiness on a `string | undefined` value: `undefined` and `""` are
falsy; a non-empty string is its own truthy value. -/
def truthy : Option (List Char) → Option (List Char)
  | some s => if s = [] then none else some s
  | none => none

/-- JS `a || b` on `string | undefined` values. -/
def jsOr (a b : Option (List Char)) : Option (List Char) :=
  match a with
  | some s => if s = [] then b else some s
  | none => b

/-- The extraction-relevant part of the request context handed to the token
extractor: `body._csrf`, `query._csrf`, and the header collection's lookup. -/
structure ReqCtx where
  method : List Char
  cookieVal : Option (List Char)
  bodyCsrf : Option (List Char)
  queryCsrf : Option (List Char)
  headers : List Char → Option (List Char)

/-- `defaultValue(context)`: `body?._csrf || query?._csrf ||
headers["csrf-token"] || headers["xsrf-token"] || headers["x-csrf-token"] ||
headers["x-xsrf-token"]`. -/
def defaultValue (ctx : ReqCtx) : Option (List Char) :=
  jsOr ctx.bodyCsrf
    (jsOr ctx.queryCsrf
      (jsOr (ctx.headers ("csrf-token".toList))
        (jsOr (ctx.headers ("xsrf-token".toList))
          (jsOr (ctx.headers ("x-csrf-token".toList))
            (ctx.headers ("x-xsrf-token".toList))))))

/-- `method.toUpperCase()`. -/
def toUpperList (s : List Char) : List Char := s.map Char.toUpper

/-- Membership test against the lookup object built by
`getIgnoredMethods(methods)`: each configured method is stored uppercased. -/
def isIgnoredMethod (methods : List (List Char)) (m : List Char) : Bool :=
  (methods.map toUpperList).contains m

/-- The resolved plugin configuration (`cookie` collapsed to whether
cookie-backed storage is enabled; cookie attributes do not influence any
claim below). -/
structure CsrfConfig where
  cookieEnabled : Bool
  saltLength : Nat := 8
  secretLength : Nat := 18
  ignoreMethods : List (List Char) := ["GET".toList, "HEAD".toList, "OPTIONS".toList]

/-- Outcome of the `onBeforeHandle` hook: fall through to the handler, or
short-circuit with `new Response(msg, { status })`. -/
inductive Decision where
  | proceed : Decision
  | reject : Nat → List Char → Decision
deriving DecidableEq

/-- The body of every CSRF validation failure response. -/
def invalidMsg : List Char := "Invalid CSRF token".toList

/-- Variant A `onBeforeHandle`: method gate, cookie-config check with its
distinct message, secret read, token extraction, verification. -/
def onBeforeHandleA (dg : List Char → List Nat) (cfg : CsrfConfig)
    (getValue : ReqCtx → Option (List Char)) (ctx : ReqCtx) : Decision :=
  if isIgnoredMethod cfg.ignoreMethods (toUpperList ctx.method) then .proceed
  else if cfg.cookieEnabled = false then
    .reject 403 ("Invalid CSRF token: Cookie config not enabled".toList)
  else
    match truthy ctx.cookieVal with
    | none => .reject 403 invalidMsg
    | some secret =>
      match truthy (getValue ctx) with
      | none => .reject 403 invalidMsg
      | some tokenValue =>
        if verifyTokenA dg secret tokenValue cfg.saltLength then .proceed
        else .reject 403 invalidMsg

/-- Variant B `onBeforeHandle`: method gate, secret read only when cookie
storage is enabled, then `if (!tokenValue || !verifyToken(secret, tokenValue))`. -/
def onBeforeHandleB (dg : List Char → List Nat) (cfg : CsrfConfig)
    (getValue : ReqCtx → Option (List Char)) (ctx : ReqCtx) : Decision :=
  if isIgnoredMethod cfg.ignoreMethods (toUpperList ctx.method) then .proceed
  else
    match (if cfg.cookieEnabled then truthy ctx.cookieVal else none) with
    | none => .reject 403 invalidMsg
    | some secret =>
      match truthy (getValue ctx) with
      | none => .reject 403 invalidMsg
      | some tokenValue =>
        if verifyTokenB dg secret tokenValue then .proceed
        else .reject 403 invalidMsg

/-- Request-scoped state of variant A's `derive` closure: the `cachedSecret`
upvalue, the value of the configured cookie, a count of cookie-store writes,
and the random stream cursor. -/
structure DeriveState where
  cachedSecret : Option (List Char)
  cookieVal : Option (List Char)
  writes : Nat
  rngPos : Nat
deriving DecidableEq

/-- The only exception the plugin throws. -/
inductive CsrfError where
  | cookieStorageDisabled
deriving DecidableEq

/-- Variant A `getOrCreateSecret()`: return the cached secret if truthy;
throw if cookie storage is disabled; otherwise read the cookie, generating,
writing and caching a fresh secret when the cookie value is falsy. -/
def getOrCreateSecret (cfg : CsrfConfig) (rng : Nat → Nat) (st : DeriveState) :
    Except CsrfError (List Char × DeriveState) :=
  match truthy st.cachedSecret with
  | some s => .ok (s, st)
  | none =>
    if cfg.cookieEnabled = false then .error .cookieStorageDisabled
    else
      match truthy st.cookieVal with
      | some s => .ok (s, { st with cachedSecret := some s })
      | none =>
        let s := generateSecret rng st.rngPos cfg.secretLength
        .ok (s, { cachedSecret := some s, cookieVal := some s,
                   writes := st.writes + 1, rngPos := st.rngPos + cfg.secretLength })

/-- Variant A `csrfToken()`: obtain-or-create the secret, draw a fresh salt
of `saltLength`, return `tokenize(secret, salt)`. -/
def csrfTokenA (dg : List Char → List Nat) (cfg : CsrfConfig) (rng : Nat → Nat)
    (st : DeriveState) : Except CsrfError (List Char × DeriveState) :=
  match getOrCreateSecret cfg rng st with
  | .error e => .error e
  | .ok (secret, st1) =>
    let salt := randomString rng st1.rngPos cfg.saltLength
    .ok (tokenize dg secret salt,
         { st1 with rngPos := st1.rngPos + bytesNeeded cfg.saltLength })

/-- Request-scoped state of variant B's `derive` closure: the `secret` and
`token` upvalues, the cookie value, write count, and stream cursor. -/
structure DeriveStateB where
  secret : Option (List Char)
  token : Option (List Char)
  cookieVal : Option (List Char)
  writes : Nat
  rngPos : Nat
deriving DecidableEq

/-- The tail of variant B's `csrfToken()`: draw a fresh salt, tokenize, and
store the minted token in the `token` upvalue. -/
def mintB (dg : List Char → List Nat) (cfg : CsrfConfig) (rng : Nat → Nat)
    (currentSecret : List Char) (st : DeriveStateB) : List Char × DeriveStateB :=
  let salt := randomString rng st.rngPos cfg.saltLength
  let tok := tokenize dg currentSecret salt
  (tok, { st with token := some tok, rngPos := st.rngPos + bytesNeeded cfg.saltLength })

/-- Variant B `csrfToken()`: throw when cookie storage is disabled; resolve
the secret (generating and writing one when the upvalue is falsy); return the
cached token when `token && currentSecret === secret`; otherwise mint. -/
def csrfTokenB (dg : List Char → List Nat) (cfg : CsrfConfig) (rng : Nat → Nat)
    (st : DeriveStateB) : Except CsrfError (List Char × DeriveStateB) :=
  if cfg.cookieEnabled = false then .error .cookieStorageDisabled
  else
    let resolved : List Char × DeriveStateB :=
      match truthy st.secret with
      | some s => (s, st)
      | none =>
        let s := generateSecret rng st.rngPos cfg.secretLength
        (s, { st with secret := some s, cookieVal := some s,
                      writes := st.writes + 1, rngPos := st.rngPos + cfg.secretLength })
    match truthy resolved.2.token with
    | some t =>
      if resolved.2.secret = some resolved.1 then .ok (t, resolved.2)
      else .ok (mintB dg cfg rng resolved.1 resolved.2)
    | none => .ok (mintB dg cfg rng resolved.1 resolved.2)

/-- Spec-side description of the default extraction order: the first
non-empty value in the list wins. -/
def firstNonEmpty : List (Option (List Char)) → Option (List Char)
  | [] => none
  | a :: rest =>
    match truthy a with
    | some v => some v
    | none => firstNonEmpty rest

/-- Right-nested JS `||` over a non-empty list (the last element is returned
as-is, matching `a || b || ... || z`). -/
def chainOr : List (Option (List Char)) → Option (List Char)
  | [] => none
  | [a] => a
  | a :: b :: rest => jsOr a (chainOr (b :: rest))

/-- The six candidate sources of `defaultValue`, in source order. -/
def extractionSources (ctx : ReqCtx) : List (Option (List Char)) :=
  [ctx.bodyCsrf, ctx.queryCsrf,
   ctx.headers ("csrf-token".toList), ctx.headers ("xsrf-token".toList),
   ctx.headers ("x-csrf-token".toList), ctx.headers ("x-xsrf-token".toList)]

/-! Concrete fixtures used by closed counterexamples and witnesses.  The
digest stand-in returns 32 zero bytes (the length of a SHA-256 digest); the
facts proved with it below do not depend on digest values, only on the
digest being a fixed function. -/

/-- A digest stand-in: a constant 32-byte output, like SHA-256's length. -/
def zeroDigest : List Char → List Nat := fun _ => List.replicate 32 0

/-- A byte stream that always yields `0xFB`, whose base64 encoding starts
with `+` (mapped to `-` by the url-safe replacement). -/
def rng251 : Nat → Nat := fun _ => 251

/-- The all-zero byte stream: base64-encodes to `A`s only. -/
def rngZero : Nat → Nat := fun _ => 0

/-- A stream yielding zeros for the first six bytes and `0xFB` afterwards,
so that a first salt draw and a second salt draw differ. -/
def rngC2 : Nat → Nat := fun n => if n < 6 then 0 else 251

/-- A non-empty secret. -/
def secretX : List Char := "x".toList

/-- Configuration with cookie storage enabled and every default. -/
def cfgT : CsrfConfig := { cookieEnabled := true }

/-- An empty header collection. -/
def noHeaders : List Char → Option (List Char) := fun _ => none

/-- A `GET` request (lower-case, exercising method normalization). -/
def ctxGet : ReqCtx := ⟨"get".toList, none, none, none, noHeaders⟩

/-- A `POST` request with no secret cookie and no token anywhere. -/
def ctxPost : ReqCtx := ⟨"POST".toList, none, none, none, noHeaders⟩

/-- A `POST` request with a secret cookie but no token anywhere. -/
def ctxPostCookie : ReqCtx := ⟨"POST".toList, some secretX, none, none, noHeaders⟩

/-- A `POST` request with a secret cookie and a body `_csrf` field. -/
def ctxPostBody : ReqCtx := ⟨"POST".toList, some secretX, some ("tok".toList), none, noHeaders⟩

/-- Variant A derive state: nothing cached, secret cookie already present. -/
def stA0 : DeriveState := ⟨none, some secretX, 0, 0⟩

/-- The token minted by the first `csrfToken()` call from `stA0` under
`rngZero` (salt `AAAAAAAA` drawn at position 0). -/
def t1c : List Char := tokenize zeroDigest secretX ("AAAAAAAA".toList)

/-- State after the first variant A `csrfToken()` call from `stA0`. -/
def st1c : DeriveState := ⟨some secretX, some secretX, 0, 6⟩

/-- The token minted by the second variant A call (salt drawn at position 6). -/
def t2c : List Char := tokenize zeroDigest secretX (randomString rngZero 6 8)

/-- State after the second variant A `csrfToken()` call. -/
def st2c : DeriveState := ⟨some secretX, some secretX, 0, 12⟩

/-- Variant B derive state: secret resolved from the cookie, no token yet. -/
def stB0 : DeriveStateB := ⟨some secretX, none, some secretX, 0, 0⟩

/-- The token minted by the first variant B `csrfToken()` call from `stB0`
under `rngC2` (salt `AAAAAAAA` drawn at positions 0–5). -/
def tokB1 : List Char := tokenize zeroDigest secretX ("AAAAAAAA".toList)

/-- State after the first variant B `csrfToken()` call from `stB0`. -/
def stB1 : DeriveStateB := ⟨some secretX, some tokB1, some secretX, 0, 6⟩

deriving instance DecidableEq for Except

/-- Variant A derive state with nothing cached and no cookie. -/
def stC8a : DeriveState := ⟨none, none, 0, 0⟩

/-- The secret generated from 18 zero bytes: 24 `A` characters. -/
def sC8 : List Char := "AAAAAAAAAAAAAAAAAAAAAAAA".toList

/-- State after the first `getOrCreateSecret` call from `stC8a` under
`rngZero`: secret cached, cookie written once, 18 bytes consumed. -/
def stC8b : DeriveState := ⟨some sC8, some sC8, 1, 18⟩

/-- The degenerate configuration with a zero-length secret. -/
def cfg0 : CsrfConfig := { cookieEnabled := true, secretLength := 0 }

/-- State after one `getOrCreateSecret` call under `cfg0`: the empty secret
is cached and written once. -/
def stC8c : DeriveState := ⟨some [], some [], 1, 0⟩

/-- State after a second `getOrCreateSecret` call under `cfg0`: the cookie
has been written a second time. -/
def stC8d : DeriveState := ⟨some [], some [], 2, 0⟩

/-! Helper lemmas. -/

theorem urlSafeReplace_eqChar {c : Char} (h : urlSafeReplace c = '=') : c = '=' := by
  unfold urlSafeReplace at h
  split_ifs at h with h1 h2
  · exact absurd h (by decide)
  · exact absurd h (by decide)
  · exact h

theorem urlSafeReplace_ne {c : Char} (h : c ≠ '=') : urlSafeReplace c ≠ '=' :=
  fun hc => h (urlSafeReplace_eqChar hc)

theorem urlSafeReplace_avoid (d : Char) :
    urlSafeReplace d ≠ '+' ∧ urlSafeReplace d ≠ '/' := by
  unfold urlSafeReplace
  split_ifs with h1 h2
  · exact ⟨by decide, by decide⟩
  · exact ⟨by decide, by decide⟩
  · exact ⟨h1, h2⟩

theorem b64Char_ne (k : Nat) : b64Char k ≠ '=' := by
  unfold b64Char
  rcases Nat.lt_or_ge k 64 with h | h
  · exact (by decide : ∀ m, m < 64 → base64Alphabet.getD m 'A' ≠ '=') k h
  · rw [List.getD_eq_default]
    · decide
    · have : base64Alphabet.length = 64 := by decide
      omega

theorem stripEquals_keep {c : Char} {l : List Char} (h : c ≠ '=') :
    stripEquals (c :: l) = c :: stripEquals l := by
  simp [stripEquals, List.filter_cons, h]

theorem stripEquals_drop {l : List Char} : stripEquals ('=' :: l) = stripEquals l := by
  simp [stripEquals, List.filter_cons]

theorem urlSafeB64_length : ∀ bs : List Nat,
    (urlSafeB64 bs).length = (4 * bs.length + 2) / 3
  | [] => rfl
  | [b1] => by
    have e : urlSafeReplace '=' = '=' := by decide
    simp only [urlSafeB64, base64EncodeList, List.map, e]
    rw [stripEquals_keep (urlSafeReplace_ne (b64Char_ne _)),
        stripEquals_keep (urlSafeReplace_ne (b64Char_ne _)),
        stripEquals_drop, stripEquals_drop]
    have h0 : stripEquals ([] : List Char) = [] := rfl
    rw [h0]
    simp only [List.length_cons, List.length_nil]
  | [b1, b2] => by
    have e : urlSafeReplace '=' = '=' := by decide
    simp only [urlSafeB64, base64EncodeList, List.map, e]
    rw [stripEquals_keep (urlSafeReplace_ne (b64Char_ne _)),
        stripEquals_keep (urlSafeReplace_ne (b64Char_ne _)),
        stripEquals_keep (urlSafeReplace_ne (b64Char_ne _)),
        stripEquals_drop]
    have h0 : stripEquals ([] : List Char) = [] := rfl
    rw [h0]
    simp only [List.length_cons, List.length_nil]
  | b1 :: b2 :: b3 :: rest => by
    have ih := urlSafeB64_length rest
    simp only [urlSafeB64, base64EncodeList, List.map] at ih ⊢
    rw [stripEquals_keep (urlSafeReplace_ne (b64Char_ne _)),
        stripEquals_keep (urlSafeReplace_ne (b64Char_ne _)),
        stripEquals_keep (urlSafeReplace_ne (b64Char_ne _)),
        stripEquals_keep (urlSafeReplace_ne (b64Char_ne _))]
    simp only [List.length_cons]
    omega

theorem readBytes_length (rng : Nat → Nat) (pos n : Nat) :
    (readBytes rng pos n).length = n := by
  simp [readBytes]

theorem generateSecret_ne_nil {rng : Nat → Nat} {pos n : Nat} (h : 1 ≤ n) :
    generateSecret rng pos n ≠ [] := by
  intro hnil
  have hlen := urlSafeB64_length (readBytes rng pos n)
  rw [readBytes_length] at hlen
  have h2 : generateSecret rng pos n = urlSafeB64 (readBytes rng pos n) := rfl
  rw [← h2, hnil] at hlen
  simp only [List.length_nil] at hlen
  omega

theorem truthy_eq_some {a : Option (List Char)} {v : List Char}
    (h : truthy a = some v) : a = some v := by
  cases a with
  | none => exact absurd h (by simp [truthy])
  | some s =>
    simp only [truthy] at h
    by_cases hs : s = []
    · rw [if_pos hs] at h; exact absurd h (by simp)
    · rw [if_neg hs] at h; exact h

theorem truthy_ne_nil {a : Option (List Char)} {v : List Char}
    (h : truthy a = some v) : v ≠ [] := by
  cases a with
  | none => exact absurd h (by simp [truthy])
  | some s =>
    simp only [truthy] at h
    by_cases hs : s = []
    · rw [if_pos hs] at h; exact absurd h (by simp)
    · rw [if_neg hs] at h; rw [← Option.some.inj h]; exact hs

theorem truthy_some_of_ne {v : List Char} (h : v ≠ []) : truthy (some v) = some v := by
  simp only [truthy]
  rw [if_neg h]

theorem jsOr_of_truthy {a x : Option (List Char)} {w : List Char}
    (h : truthy a = some w) : jsOr a x = some w := by
  cases a with
  | none => exact absurd h (by simp [truthy])
  | some s =>
    simp only [truthy] at h
    simp only [jsOr]
    by_cases hs : s = []
    · rw [if_pos hs] at h; exact absurd h (by simp)
    · rw [if_neg hs] at h; rw [if_neg hs]; exact h

theorem jsOr_of_falsy {a x : Option (List Char)} (h : truthy a = none) :
    jsOr a x = x := by
  cases a with
  | none => rfl
  | some s =>
    simp only [truthy] at h
    simp only [jsOr]
    by_cases hs : s = []
    · rw [if_pos hs]
    · rw [if_neg hs] at h; exact absurd h (by simp)

theorem indexOfDash_none : ∀ l : List Char, indexOfDash l = none →
    ∀ c ∈ l, c ≠ '-'
  | [], _, c, hc => absurd hc (by simp)
  | a :: rest, h, c, hc => by
    unfold indexOfDash at h
    by_cases ha : a = '-'
    · rw [if_pos ha] at h; exact absurd h (by simp)
    · rw [if_neg ha] at h
      cases hr : indexOfDash rest with
      | none =>
        rcases List.mem_cons.mp hc with rfl | hmem
        · exact ha
        · exact indexOfDash_none rest hr c hmem
      | some i => rw [hr] at h; exact absurd h (by simp)

theorem indexOfDash_get : ∀ (l : List Char) (i : Nat), indexOfDash l = some i →
    l.get? i = some '-'
  | [], i, h => absurd h (by simp [indexOfDash])
  | a :: rest, i, h => by
    unfold indexOfDash at h
    by_cases ha : a = '-'
    · rw [if_pos ha] at h
      rw [← Option.some.inj h]
      exact congrArg some ha
    · rw [if_neg ha] at h
      cases hr : indexOfDash rest with
      | none => rw [hr] at h; exact absurd h (by simp)
      | some j =>
        rw [hr] at h
        have h' : some (j + 1) = some i := h
        rw [← Option.some.inj h']
        exact indexOfDash_get rest j hr

theorem firstNonEmpty_cons (a : Option (List Char)) (rest : List (Option (List Char))) :
    firstNonEmpty (a :: rest) =
      (match truthy a with | some v => some v | none => firstNonEmpty rest) := rfl

theorem defaultValue_eq_chain (ctx : ReqCtx) :
    defaultValue ctx = chainOr (extractionSources ctx) := rfl

theorem chainOr_pos : ∀ (l : List (Option (List Char))) (v : List Char),
    firstNonEmpty l = some v → chainOr l = some v
  | [], v, h => Option.noConfusion h
  | [a], v, h => by
    cases ha : truthy a with
    | some w =>
      rw [firstNonEmpty_cons, ha] at h
      have h' : some w = some v := h
      show a = some v
      rw [truthy_eq_some ha]
      exact h'
    | none =>
      rw [firstNonEmpty_cons, ha] at h
      have h' : (none : Option (List Char)) = some v := h
      exact Option.noConfusion h'
  | a :: b :: rest, v, h => by
    cases ha : truthy a with
    | some w =>
      rw [firstNonEmpty_cons, ha] at h
      have h' : some w = some v := h
      show jsOr a (chainOr (b :: rest)) = some v
      rw [jsOr_of_truthy ha]
      exact h'
    | none =>
      rw [firstNonEmpty_cons, ha] at h
      have h' : firstNonEmpty (b :: rest) = some v := h
      show jsOr a (chainOr (b :: rest)) = some v
      rw [jsOr_of_falsy ha]
      exact chainOr_pos (b :: rest) v h'

theorem chainOr_neg : ∀ l : List (Option (List Char)),
    firstNonEmpty l = none → truthy (chainOr l) = none
  | [], _ => rfl
  | [a], h => by
    cases ha : truthy a with
    | some w =>
      rw [firstNonEmpty_cons, ha] at h
      exact Option.noConfusion h
    | none => exact ha
  | a :: b :: rest, h => by
    cases ha : truthy a with
    | some w =>
      rw [firstNonEmpty_cons, ha] at h
      exact Option.noConfusion h
    | none =>
      rw [firstNonEmpty_cons, ha] at h
      have h' : firstNonEmpty (b :: rest) = none := h
      show truthy (jsOr a (chainOr (b :: rest))) = none
      rw [jsOr_of_falsy ha]
      exact chainOr_neg (b :: rest) h'

theorem verifyTokenB_no_sep (dg : List Char → List Nat) (s t : List Char)
    (h : indexOfDash t = none) : verifyTokenB dg s t = false := by
  unfold verifyTokenB
  rw [h]
  split_ifs <;> rfl

theorem verifyTokenA_no_sep (dg : List Char → List Nat) (s t : List Char) (n : Nat)
    (h : indexOfDash t = none) : verifyTokenA dg s t n = false := by
  unfold verifyTokenA
  split_ifs with h1 h2 h3 h4 <;> try rfl
  exfalso
  have hg : t.get? n = some '-' := not_not.mp h4
  have hm : '-' ∈ t := List.get?_mem hg
  exact indexOfDash_none t h '-' hm rfl

theorem getOrCreateSecret_cached (cfg : CsrfConfig) (rng : Nat → Nat)
    (st : DeriveState) (s : List Char) (st' : DeriveState)
    (hl : 1 ≤ cfg.secretLength)
    (h : getOrCreateSecret cfg rng st = .ok (s, st')) :
    st'.cachedSecret = some s ∧ s ≠ [] := by
  unfold getOrCreateSecret at h
  cases hc : truthy st.cachedSecret with
  | some w =>
    rw [hc] at h
    have h3 := Except.ok.inj h
    have hw : w = s := congrArg Prod.fst h3
    have hst : st = st' := congrArg Prod.snd h3
    subst hw
    rw [← hst]
    exact ⟨truthy_eq_some hc, truthy_ne_nil hc⟩
  | none =>
    rw [hc] at h
    by_cases he : cfg.cookieEnabled = false
    · rw [if_pos he] at h; exact Except.noConfusion h
    · rw [if_neg he] at h
      cases hcv : truthy st.cookieVal with
      | some w =>
        rw [hcv] at h
        have h3 := Except.ok.inj h
        have hw : w = s := congrArg Prod.fst h3
        have hst : ({ st with cachedSecret := some w } : DeriveState) = st' :=
          congrArg Prod.snd h3
        subst hw
        rw [← hst]
        exact ⟨rfl, truthy_ne_nil hcv⟩
      | none =>
        rw [hcv] at h
        have h3 := Except.ok.inj h
        have hw : generateSecret rng st.rngPos cfg.secretLength = s :=
          congrArg Prod.fst h3
        have hst : ({ cachedSecret := some (generateSecret rng st.rngPos cfg.secretLength),
                      cookieVal := some (generateSecret rng st.rngPos cfg.secretLength),
                      writes := st.writes + 1,
                      rngPos := st.rngPos + cfg.secretLength } : DeriveState) = st' :=
          congrArg Prod.snd h3
        rw [← hst]
        refine ⟨congrArg some hw, ?_⟩
        rw [← hw]
        exact generateSecret_ne_nil hl

theorem onBeforeHandleA_proceed_iff (dg : List Char → List Nat) (cfg : CsrfConfig)
    (gv : ReqCtx → Option (List Char)) (ctx : ReqCtx)
    (hig : isIgnoredMethod cfg.ignoreMethods (toUpperList ctx.method) = false) :
    onBeforeHandleA dg cfg gv ctx = .proceed ↔
      cfg.cookieEnabled = true ∧ ∃ s t, truthy ctx.cookieVal = some s ∧
        truthy (gv ctx) = some t ∧ verifyTokenA dg s t cfg.saltLength = true := by
  unfold onBeforeHandleA
  have hig' : ¬isIgnoredMethod cfg.ignoreMethods (toUpperList ctx.method) = true := by
    rw [hig]; exact Bool.false_ne_true
  rw [if_neg hig']
  by_cases he : cfg.cookieEnabled = false
  · rw [if_pos he]
    constructor
    · intro hx; exact Decision.noConfusion hx
    · rintro ⟨hen, -⟩; rw [hen] at he; exact Bool.noConfusion he
  · rw [if_neg he]
    have hen : cfg.cookieEnabled = true := by
      cases hb : cfg.cookieEnabled
      · exact absurd hb he
      · rfl
    cases hcv : truthy ctx.cookieVal with
    | none =>
      constructor
      · intro hx; exact Decision.noConfusion hx
      · rintro ⟨-, s, t, hs, -⟩; exact Option.noConfusion hs
    | some s0 =>
      cases hgv : truthy (gv ctx) with
      | none =>
        constructor
        · intro hx; exact Decision.noConfusion hx
        · rintro ⟨-, s, t, -, ht, -⟩; exact Option.noConfusion ht
      | some t0 =>
        by_cases hv : verifyTokenA dg s0 t0 cfg.saltLength = true
        · constructor
          · intro _; exact ⟨hen, s0, t0, rfl, rfl, hv⟩
          · intro _
            show (if verifyTokenA dg s0 t0 cfg.saltLength = true then Decision.proceed
                  else Decision.reject 403 invalidMsg) = Decision.proceed
            rw [if_pos hv]
        · constructor
          · intro hx
            have hx' : (if verifyTokenA dg s0 t0 cfg.saltLength = true then Decision.proceed
                        else Decision.reject 403 invalidMsg) = Decision.proceed := hx
            rw [if_neg hv] at hx'
            exact Decision.noConfusion hx'
          · rintro ⟨-, s, t, hs, ht, hv'⟩
            rw [← Option.some.inj hs, ← Option.some.inj ht] at hv'
            exact absurd hv' hv

theorem onBeforeHandleB_proceed_iff (dg : List Char → List Nat) (cfg : CsrfConfig)
    (gv : ReqCtx → Option (List Char)) (ctx : ReqCtx)
    (hig : isIgnoredMethod cfg.ignoreMethods (toUpperList ctx.method) = false) :
    onBeforeHandleB dg cfg gv ctx = .proceed ↔
      cfg.cookieEnabled = true ∧ ∃ s t, truthy ctx.cookieVal = some s ∧
        truthy (gv ctx) = some t ∧ verifyTokenB dg s t = true := by
  unfold onBeforeHandleB
  have hig' : ¬isIgnoredMethod cfg.ignoreMethods (toUpperList ctx.method) = true := by
    rw [hig]; exact Bool.false_ne_true
  rw [if_neg hig']
  by_cases he : cfg.cookieEnabled = false
  · rw [show (if cfg.cookieEnabled = true then truthy ctx.cookieVal else none) = none from
        if_neg (by rw [he]; exact Bool.false_ne_true)]
    constructor
    · intro hx; exact Decision.noConfusion hx
    · rintro ⟨hen, -⟩; rw [hen] at he; exact Bool.noConfusion he
  · have hen : cfg.cookieEnabled = true := by
      cases hb : cfg.cookieEnabled
      · exact absurd hb he
      · rfl
    rw [show (if cfg.cookieEnabled = true then truthy ctx.cookieVal else none) =
        truthy ctx.cookieVal from if_pos hen]
    cases hcv : truthy ctx.cookieVal with
    | none =>
      constructor
      · intro hx; exact Decision.noConfusion hx
      · rintro ⟨-, s, t, hs, -⟩; exact Option.noConfusion hs
    | some s0 =>
      cases hgv : truthy (gv ctx) with
      | none =>
        constructor
        · intro hx; exact Decision.noConfusion hx
        · rintro ⟨-, s, t, -, ht, -⟩; exact Option.noConfusion ht
      | some t0 =>
        by_cases hv : verifyTokenB dg s0 t0 = true
        · constructor
          · intro _; exact ⟨hen, s0, t0, rfl, rfl, hv⟩
          · intro _
            show (if verifyTokenB dg s0 t0 = true then Decision.proceed
                  else Decision.reject 403 invalidMsg) = Decision.proceed
            rw [if_pos hv]
        · constructor
          · intro hx
            have hx' : (if verifyTokenB dg s0 t0 = true then Decision.proceed
                        else Decision.reject 403 invalidMsg) = Decision.proceed := hx
            rw [if_neg hv] at hx'
            exact Decision.noConfusion hx'
          · rintro ⟨-, s, t, hs, ht, hv'⟩
            rw [← Option.some.inj hs, ← Option.some.inj ht] at hv'
            exact absurd hv' hv

/-! Claim theorems. -/

/-- C9: for every positive length, `random_string(length)` draws
`ceil(length * 0.75)` bytes, whose url-safe base64 encoding (with `=`
stripped) has at least `length` characters, so the final truncation returns
exactly `length` characters. -/
theorem randomString_exact_length (rng : Nat → Nat) (pos L : Nat) (_h : 1 ≤ L) :
    L ≤ (urlSafeB64 (readBytes rng pos (bytesNeeded L))).length ∧
    (randomString rng pos L).length = L := by
  have hb := urlSafeB64_length (readBytes rng pos (bytesNeeded L))
  rw [readBytes_length] at hb
  have hge : L ≤ (urlSafeB64 (readBytes rng pos (bytesNeeded L))).length := by
    rw [hb]
    unfold bytesNeeded
    omega
  refine ⟨hge, ?_⟩
  unfold randomString
  rw [List.length_take]
  omega

/-- Witness for C9 at length 8 on the all-zero byte stream. -/
theorem randomString_exact_length_w :
    1 ≤ 8 ∧ (randomString rngZero 0 8).length = 8 :=
  ⟨by decide, (randomString_exact_length rngZero 0 8 (by decide)).2⟩

/-- C3 counterexample: `random_string` can output `-`.  With every random
byte `0xFB`, `randomString(1)` base64-encodes to `+w==`, the url-safe
replacement maps `+` to `-`, and the result is exactly the string `-`. -/
theorem randomString_can_contain_dash :
    randomString rng251 0 1 = ['-'] ∧ '-' ∈ randomString rng251 0 1 := by decide

/-- C3 amended: `random_string` never outputs `+`, `/` or `=`; it can
output `-` (as the image of base64 `+`), so `-` in a token is not always the
separator injected by `tokenize`. -/
theorem randomString_no_plus_slash_equal (rng : Nat → Nat) (pos L : Nat) (c : Char)
    (hc : c ∈ randomString rng pos L) : c ≠ '+' ∧ c ≠ '/' ∧ c ≠ '=' := by
  have h1 : c ∈ urlSafeB64 (readBytes rng pos (bytesNeeded L)) :=
    List.take_subset _ _ hc
  unfold urlSafeB64 stripEquals at h1
  rw [List.mem_filter] at h1
  obtain ⟨hmem, hne⟩ := h1
  have hne' : c ≠ '=' := by simpa using hne
  obtain ⟨d, _hd, rfl⟩ := List.mem_map.mp hmem
  exact ⟨(urlSafeReplace_avoid d).1, (urlSafeReplace_avoid d).2, hne'⟩

/-- Witness for the amended C3: the member `-` of `randomString rng251 0 1`
is none of `+`, `/`, `=`. -/
theorem randomString_no_plus_slash_equal_w :
    '-' ∈ randomString rng251 0 1 ∧ ('-' ≠ '+' ∧ '-' ≠ '/' ∧ '-' ≠ '=') :=
  ⟨by decide, randomString_no_plus_slash_equal rng251 0 1 '-' (by decide)⟩

/-- C1 (evaluation at the failing input): with every random byte `0xFB` the
drawn salt is `-_v7-_v7` (length 8, containing `-`), and for the non-empty
secret `x` the freshly minted token `tokenize(secret, salt)` is accepted by
the fixed-position verifier (variant A) but rejected by the first-separator
verifier (variant B), because B splits at the `-` inside the salt and then
fails its length comparison.  The outcome does not depend on the digest
values: A compares two identical strings and B rejects on length alone. -/
theorem mintedToken_rejected_by_first_separator_verifier :
    (randomString rng251 0 8).length = 8 ∧
    verifyTokenA zeroDigest secretX
      (tokenize zeroDigest secretX (randomString rng251 0 8)) 8 = true ∧
    verifyTokenB zeroDigest secretX
      (tokenize zeroDigest secretX (randomString rng251 0 8)) = false := by decide

/-- C10 counterexample: for the 8-character salt `a-AAAAAA` (legal output
shape for the salt position) the two verifiers disagree on the minted token:
variant A (fixed position 8) accepts, variant B (first separator, at
position 1) rejects. -/
theorem verifyToken_variants_disagree :
    verifyTokenA zeroDigest secretX
      (tokenize zeroDigest secretX ("a-AAAAAA".toList)) 8 = true ∧
    verifyTokenB zeroDigest secretX
      (tokenize zeroDigest secretX ("a-AAAAAA".toList)) = false := by decide

/-- C10 amended: the two verifiers agree on every `(secret, token)` pair in
which the token's first `-` sits exactly at position `saltLength = 8`; they
can disagree only on tokens whose first `-` lies elsewhere. -/
theorem verifyToken_variants_agree_at_fixed_separator (dg : List Char → List Nat)
    (s t : List Char) (h : indexOfDash t = some 8) :
    verifyTokenA dg s t 8 = verifyTokenB dg s t := by
  have hget : t.get? 8 = some '-' := indexOfDash_get t 8 h
  have hlt : 8 < t.length := by
    rcases List.get?_eq_some.mp hget with ⟨hl, _⟩
    exact hl
  unfold verifyTokenA verifyTokenB
  rw [h]
  by_cases hs : s = []
  · rw [if_pos hs, if_pos hs]
  · rw [if_neg hs, if_neg hs]
    by_cases ht : t = []
    · rw [if_pos ht, if_pos ht]
    · rw [if_neg ht, if_neg ht]
      rw [if_neg (show ¬t.length < 8 + 1 from by omega)]
      rw [if_neg (show ¬t.get? 8 ≠ some '-' from not_not_intro hget)]

/-- Witness for the amended C10 at a token whose first `-` is at position 8. -/
theorem verifyToken_variants_agree_at_fixed_separator_w :
    indexOfDash t1c = some 8 ∧
    verifyTokenA zeroDigest secretX t1c 8 = verifyTokenB zeroDigest secretX t1c :=
  ⟨by decide,
   verifyToken_variants_agree_at_fixed_separator zeroDigest secretX t1c (by decide)⟩

/-- C7: both `verifyToken` variants return `false` (they are total Lean
functions, so they cannot throw) for an empty secret, an empty token, a
token without the expected separator (first-`-` for variant B, `-` at
position `saltLength` for variant A), and a token whose length differs from
the recomputed expected token's length. -/
theorem verifyToken_rejects_degenerate_inputs (dg : List Char → List Nat)
    (s t : List Char) (n : Nat) :
    (s = [] → verifyTokenA dg s t n = false ∧ verifyTokenB dg s t = false) ∧
    (t = [] → verifyTokenA dg s t n = false ∧ verifyTokenB dg s t = false) ∧
    (t.get? n ≠ some '-' → verifyTokenA dg s t n = false) ∧
    (indexOfDash t = none → verifyTokenB dg s t = false) ∧
    (t.length ≠ (tokenize dg s (t.take n)).length → verifyTokenA dg s t n = false) ∧
    (∀ i, indexOfDash t = some i →
      t.length ≠ (tokenize dg s (t.take i)).length → verifyTokenB dg s t = false) := by
  refine ⟨?_, ?_, ?_, ?_, ?_, ?_⟩
  · intro hs
    constructor
    · unfold verifyTokenA; rw [if_pos hs]
    · unfold verifyTokenB; rw [if_pos hs]
  · intro ht
    constructor
    · unfold verifyTokenA
      by_cases hs : s = []
      · rw [if_pos hs]
      · rw [if_neg hs, if_pos ht]
    · unfold verifyTokenB
      by_cases hs : s = []
      · rw [if_pos hs]
      · rw [if_neg hs, if_pos ht]
  · intro hg
    unfold verifyTokenA
    by_cases h1 : s = []
    · rw [if_pos h1]
    · rw [if_neg h1]
      by_cases h2 : t = []
      · rw [if_pos h2]
      · rw [if_neg h2]
        by_cases h3 : t.length < n + 1
        · rw [if_pos h3]
        · rw [if_neg h3, if_pos hg]
  · intro hd
    exact verifyTokenB_no_sep dg s t hd
  · intro hlen
    unfold verifyTokenA
    by_cases h1 : s = []
    · rw [if_pos h1]
    · rw [if_neg h1]
      by_cases h2 : t = []
      · rw [if_pos h2]
      · rw [if_neg h2]
        by_cases h3 : t.length < n + 1
        · rw [if_pos h3]
        · rw [if_neg h3]
          by_cases h4 : t.get? n ≠ some '-'
          · rw [if_pos h4]
          · rw [if_neg h4]
            show (if t.length ≠ (tokenize dg s (t.take n)).length then false
                  else decide (xorAcc t (tokenize dg s (t.take n)) = 0)) = false
            rw [if_pos hlen]
  · intro i hi hlen
    unfold verifyTokenB
    rw [hi]
    by_cases h1 : s = []
    · rw [if_pos h1]
    · rw [if_neg h1]
      by_cases h2 : t = []
      · rw [if_pos h2]
      · rw [if_neg h2]
        show (if t.length ≠ (tokenize dg s (t.take i)).length then false
              else decide (xorAcc t (tokenize dg s (t.take i)) = 0)) = false
        rw [if_pos hlen]

/-- Witness for C7: the empty secret is rejected by both variants. -/
theorem verifyToken_rejects_degenerate_inputs_w :
    verifyTokenA zeroDigest [] ("abc".toList) 8 = false ∧
    verifyTokenB zeroDigest [] ("abc".toList) = false :=
  (verifyToken_rejects_degenerate_inputs zeroDigest [] ("abc".toList) 8).1 rfl

/-- C5: a request whose uppercased method is in the configured ignored set
proceeds unconditionally in both variants — for every cookie state, body,
query, header collection and extractor, so no secret read, extraction or
verification can influence the outcome; for every other method the decision
is exactly the validation outcome: it proceeds iff cookie storage is
enabled, the secret cookie is non-empty, the extracted candidate is
non-empty, and `verifyToken` accepts. -/
theorem method_gate_exempt_or_checked (dg : List Char → List Nat) (cfg : CsrfConfig)
    (gv : ReqCtx → Option (List Char)) (ctx : ReqCtx) :
    (isIgnoredMethod cfg.ignoreMethods (toUpperList ctx.method) = true →
      onBeforeHandleA dg cfg gv ctx = .proceed ∧
      onBeforeHandleB dg cfg gv ctx = .proceed) ∧
    (isIgnoredMethod cfg.ignoreMethods (toUpperList ctx.method) = false →
      ((onBeforeHandleA dg cfg gv ctx = .proceed ↔
         cfg.cookieEnabled = true ∧ ∃ s t, truthy ctx.cookieVal = some s ∧
           truthy (gv ctx) = some t ∧ verifyTokenA dg s t cfg.saltLength = true) ∧
       (onBeforeHandleB dg cfg gv ctx = .proceed ↔
         cfg.cookieEnabled = true ∧ ∃ s t, truthy ctx.cookieVal = some s ∧
           truthy (gv ctx) = some t ∧ verifyTokenB dg s t = true))) := by
  constructor
  · intro hig
    constructor
    · unfold onBeforeHandleA; rw [if_pos hig]
    · unfold onBeforeHandleB; rw [if_pos hig]
  · intro hig
    exact ⟨onBeforeHandleA_proceed_iff dg cfg gv ctx hig,
           onBeforeHandleB_proceed_iff dg cfg gv ctx hig⟩

/-- Witness for C5: a lower-case `get` request with no cookie and no token
is exempt in both variants under the default configuration. -/
theorem method_gate_exempt_or_checked_w :
    isIgnoredMethod cfgT.ignoreMethods (toUpperList ctxGet.method) = true ∧
    (onBeforeHandleA zeroDigest cfgT defaultValue ctxGet = .proceed ∧
     onBeforeHandleB zeroDigest cfgT defaultValue ctxGet = .proceed) :=
  ⟨by decide,
   (method_gate_exempt_or_checked zeroDigest cfgT defaultValue ctxGet).1 (by decide)⟩

/-- C6: for a checked request (cookie storage enabled, method not ignored),
each of the four failure causes — missing secret cookie, missing or empty
candidate token, token without separator, verification failure (which
includes hash mismatch) — produces the same response, `403` with body
`Invalid CSRF token`, in the respective variant; hence no two failure causes
are distinguishable from outside. -/
theorem validation_failures_uniform_response (dg : List Char → List Nat)
    (cfg : CsrfConfig) (gv : ReqCtx → Option (List Char)) (ctx : ReqCtx)
    (hck : cfg.cookieEnabled = true)
    (hig : isIgnoredMethod cfg.ignoreMethods (toUpperList ctx.method) = false) :
    ((truthy ctx.cookieVal = none ∨ truthy (gv ctx) = none ∨
      (∃ t, truthy (gv ctx) = some t ∧ indexOfDash t = none) ∨
      (∃ s t, truthy ctx.cookieVal = some s ∧ truthy (gv ctx) = some t ∧
        verifyTokenA dg s t cfg.saltLength = false)) →
      onBeforeHandleA dg cfg gv ctx = .reject 403 invalidMsg) ∧
    ((truthy ctx.cookieVal = none ∨ truthy (gv ctx) = none ∨
      (∃ t, truthy (gv ctx) = some t ∧ indexOfDash t = none) ∨
      (∃ s t, truthy ctx.cookieVal = some s ∧ truthy (gv ctx) = some t ∧
        verifyTokenB dg s t = false)) →
      onBeforeHandleB dg cfg gv ctx = .reject 403 invalidMsg) := by
  have hig' : ¬isIgnoredMethod cfg.ignoreMethods (toUpperList ctx.method) = true := by
    rw [hig]; exact Bool.false_ne_true
  have he : ¬cfg.cookieEnabled = false := by
    rw [hck]; exact fun hx => Bool.noConfusion hx
  constructor
  · intro cause
    unfold onBeforeHandleA
    rw [if_neg hig', if_neg he]
    cases hcv : truthy ctx.cookieVal with
    | none => rfl
    | some s0 =>
      cases hgv : truthy (gv ctx) with
      | none => rfl
      | some t0 =>
        have hvf : verifyTokenA dg s0 t0 cfg.saltLength = false := by
          rcases cause with hc1 | hc2 | ⟨t, ht, hnd⟩ | ⟨s, t, hs, ht, hv⟩
          · rw [hcv] at hc1; exact Option.noConfusion hc1
          · rw [hgv] at hc2; exact Option.noConfusion hc2
          · rw [hgv] at ht
            rw [← Option.some.inj ht] at hnd
            exact verifyTokenA_no_sep dg s0 t0 cfg.saltLength hnd
          · rw [hcv] at hs
            rw [hgv] at ht
            rw [← Option.some.inj hs, ← Option.some.inj ht] at hv
            exact hv
        show (if verifyTokenA dg s0 t0 cfg.saltLength = true then Decision.proceed
              else Decision.reject 403 invalidMsg) = Decision.reject 403 invalidMsg
        rw [if_neg (by rw [hvf]; exact Bool.false_ne_true)]
  · intro cause
    unfold onBeforeHandleB
    rw [if_neg hig',
        show (if cfg.cookieEnabled = true then truthy ctx.cookieVal else none) =
          truthy ctx.cookieVal from if_pos hck]
    cases hcv : truthy ctx.cookieVal with
    | none => rfl
    | some s0 =>
      cases hgv : truthy (gv ctx) with
      | none => rfl
      | some t0 =>
        have hvf : verifyTokenB dg s0 t0 = false := by
          rcases cause with hc1 | hc2 | ⟨t, ht, hnd⟩ | ⟨s, t, hs, ht, hv⟩
          · rw [hcv] at hc1; exact Option.noConfusion hc1
          · rw [hgv] at hc2; exact Option.noConfusion hc2
          · rw [hgv] at ht
            rw [← Option.some.inj ht] at hnd
            exact verifyTokenB_no_sep dg s0 t0 hnd
          · rw [hcv] at hs
            rw [hgv] at ht
            rw [← Option.some.inj hs, ← Option.some.inj ht] at hv
            exact hv
        show (if verifyTokenB dg s0 t0 = true then Decision.proceed
              else Decision.reject 403 invalidMsg) = Decision.reject 403 invalidMsg
        rw [if_neg (by rw [hvf]; exact Bool.false_ne_true)]

/-- Witness for C6: a `POST` with no secret cookie is rejected with the
uniform response in both variants. -/
theorem validation_failures_uniform_response_w :
    cfgT.cookieEnabled = true ∧
    onBeforeHandleA zeroDigest cfgT defaultValue ctxPost = .reject 403 invalidMsg ∧
    onBeforeHandleB zeroDigest cfgT defaultValue ctxPost = .reject 403 invalidMsg :=
  ⟨rfl,
   (validation_failures_uniform_response zeroDigest cfgT defaultValue ctxPost rfl
     (by decide)).1 (Or.inl (by decide)),
   (validation_failures_uniform_response zeroDigest cfgT defaultValue ctxPost rfl
     (by decide)).2 (Or.inl (by decide))⟩

/-- C4: without a custom extractor, the candidate token is the first
non-empty value among body `_csrf`, query `_csrf`, and the headers
`csrf-token`, `xsrf-token`, `x-csrf-token`, `x-xsrf-token`, in that order
(header lookup delegated to the request's header collection); when all six
are absent or empty, a checked request is rejected in both variants. -/
theorem defaultValue_extraction_order (ctx : ReqCtx) :
    (∀ v, firstNonEmpty (extractionSources ctx) = some v → defaultValue ctx = some v) ∧
    (firstNonEmpty (extractionSources ctx) = none →
      ∀ dg cfg, cfg.cookieEnabled = true →
        isIgnoredMethod cfg.ignoreMethods (toUpperList ctx.method) = false →
        onBeforeHandleA dg cfg defaultValue ctx = .reject 403 invalidMsg ∧
        onBeforeHandleB dg cfg defaultValue ctx = .reject 403 invalidMsg) := by
  constructor
  · intro v h
    rw [defaultValue_eq_chain]
    exact chainOr_pos _ v h
  · intro h dg cfg hck hig
    have hig' : ¬isIgnoredMethod cfg.ignoreMethods (toUpperList ctx.method) = true := by
      rw [hig]; exact Bool.false_ne_true
    have he : ¬cfg.cookieEnabled = false := by
      rw [hck]; exact fun hx => Bool.noConfusion hx
    have ht : truthy (defaultValue ctx) = none := by
      rw [defaultValue_eq_chain]
      exact chainOr_neg _ h
    constructor
    · unfold onBeforeHandleA
      rw [if_neg hig', if_neg he]
      cases hcv : truthy ctx.cookieVal with
      | none => rfl
      | some s0 => rw [ht]
    · unfold onBeforeHandleB
      rw [if_neg hig',
          show (if cfg.cookieEnabled = true then truthy ctx.cookieVal else none) =
            truthy ctx.cookieVal from if_pos hck]
      cases hcv : truthy ctx.cookieVal with
      | none => rfl
      | some s0 => rw [ht]

/-- Witness for C4: a body `_csrf` field wins immediately, and a request
with all six sources absent is rejected by both variants. -/
theorem defaultValue_extraction_order_w :
    defaultValue ctxPostBody = some ("tok".toList) ∧
    (onBeforeHandleA zeroDigest cfgT defaultValue ctxPostCookie = .reject 403 invalidMsg ∧
     onBeforeHandleB zeroDigest cfgT defaultValue ctxPostCookie = .reject 403 invalidMsg) :=
  ⟨(defaultValue_extraction_order ctxPostBody).1 ("tok".toList) (by decide),
   (defaultValue_extraction_order ctxPostCookie).2 (by decide) zeroDigest cfgT rfl (by decide)⟩

/-- C8 counterexample: with cookie storage enabled but `secretLength = 0`,
the generated secret is the empty string, which JS truthiness never caches:
a second `getOrCreateSecret` call regenerates it and performs a second
cookie write (the write count goes from 1 to 2), so the operation is not
idempotent as stated for every configuration. -/
theorem getOrCreateSecret_second_write_at_zero_secretLength :
    getOrCreateSecret cfg0 rngZero stC8a = .ok ([], stC8c) ∧
    getOrCreateSecret cfg0 rngZero stC8c = .ok ([], stC8d) ∧
    stC8d ≠ stC8c := by decide

/-- C8 amended: `getOrCreateSecret` is idempotent within a request: if a call
returns `(s₁, st₁)`, calling again from `st₁` returns the identical secret
and leaves the whole state — including the cookie value and the count of
cookie writes — unchanged.  (`1 ≤ secretLength` rules out the degenerate
configuration whose generated secret is the empty string, which JS
truthiness would fail to cache.) -/
theorem getOrCreateSecret_idempotent (cfg : CsrfConfig) (rng : Nat → Nat)
    (st : DeriveState) (s1 : List Char) (st1 : DeriveState)
    (hl : 1 ≤ cfg.secretLength)
    (h : getOrCreateSecret cfg rng st = .ok (s1, st1)) :
    getOrCreateSecret cfg rng st1 = .ok (s1, st1) := by
  obtain ⟨hc, hne⟩ := getOrCreateSecret_cached cfg rng st s1 st1 hl h
  unfold getOrCreateSecret
  rw [hc, truthy_some_of_ne hne]

/-- Witness for C8: starting with no cookie, the first call writes once and
caches; the second call returns the same secret and the same state. -/
theorem getOrCreateSecret_idempotent_w :
    1 ≤ cfgT.secretLength ∧
    getOrCreateSecret cfgT rngZero stC8b = .ok (sC8, stC8b) :=
  ⟨by decide,
   getOrCreateSecret_idempotent cfgT rngZero stC8a sC8 stC8b (by decide) (by decide)⟩

/-- C2 counterexample: in variant B the token is cached per request.  From
`stB1` (the state left by a first `csrfToken()` call) a second call returns
the first token again and does not advance the random stream, even though a
fresh draw at the current stream position would produce a different salt
(`-_v7-_v7`) and hence a different token. -/
theorem csrfTokenB_returns_cached_token :
    csrfTokenB zeroDigest cfgT rngC2 stB0 = .ok (tokB1, stB1) ∧
    csrfTokenB zeroDigest cfgT rngC2 stB1 = .ok (tokB1, stB1) ∧
    randomString rngC2 stB1.rngPos cfgT.saltLength ≠ ("AAAAAAAA".toList) ∧
    tokB1 ≠ tokenize zeroDigest secretX
      (randomString rngC2 stB1.rngPos cfgT.saltLength) := by decide

/-- C2 amended (variant A only): every `csrfToken()` call obtains the
secret and mints `tokenize(secret, salt)` from a salt drawn fresh at the
current stream position; two consecutive calls therefore consume disjoint
stream segments — the first salt comes from the bytes ending at `st₁`'s
cursor, the second from the bytes starting there.  (Variant B instead
returns its cached token on the second call.) -/
theorem csrfTokenA_two_calls_fresh_salts (dg : List Char → List Nat)
    (cfg : CsrfConfig) (rng : Nat → Nat) (st0 : DeriveState)
    (t1 t2 : List Char) (st1 st2 : DeriveState)
    (hl : 1 ≤ cfg.secretLength)
    (h1 : csrfTokenA dg cfg rng st0 = .ok (t1, st1))
    (h2 : csrfTokenA dg cfg rng st1 = .ok (t2, st2)) :
    ∃ s p1, st1.cachedSecret = some s ∧
      t1 = tokenize dg s (randomString rng p1 cfg.saltLength) ∧
      st1.rngPos = p1 + bytesNeeded cfg.saltLength ∧
      t2 = tokenize dg s (randomString rng st1.rngPos cfg.saltLength) ∧
      st2.rngPos = st1.rngPos + bytesNeeded cfg.saltLength := by
  unfold csrfTokenA at h1 h2
  cases hg1 : getOrCreateSecret cfg rng st0 with
  | error e => rw [hg1] at h1; exact Except.noConfusion h1
  | ok pr =>
    obtain ⟨s, stm⟩ := pr
    rw [hg1] at h1
    have h3 := Except.ok.inj h1
    have ht1 : tokenize dg s (randomString rng stm.rngPos cfg.saltLength) = t1 :=
      congrArg Prod.fst h3
    have hst1 : ({ stm with rngPos := stm.rngPos + bytesNeeded cfg.saltLength } :
        DeriveState) = st1 := congrArg Prod.snd h3
    have hpost := getOrCreateSecret_cached cfg rng st0 s stm hl hg1
    have hc1 : st1.cachedSecret = some s := by rw [← hst1]; exact hpost.1
    have hrng1 : st1.rngPos = stm.rngPos + bytesNeeded cfg.saltLength := by
      rw [← hst1]
    have hg2 : getOrCreateSecret cfg rng st1 = .ok (s, st1) := by
      unfold getOrCreateSecret
      rw [hc1, truthy_some_of_ne hpost.2]
    rw [hg2] at h2
    have h4 := Except.ok.inj h2
    have ht2 : tokenize dg s (randomString rng st1.rngPos cfg.saltLength) = t2 :=
      congrArg Prod.fst h4
    have hst2 : ({ st1 with rngPos := st1.rngPos + bytesNeeded cfg.saltLength } :
        DeriveState) = st2 := congrArg Prod.snd h4
    refine ⟨s, stm.rngPos, hc1, ht1.symm, hrng1, ht2.symm, ?_⟩
    rw [← hst2]

/-- Witness for the amended C2: two concrete variant A calls from `stA0`
under the all-zero stream. -/
theorem csrfTokenA_two_calls_fresh_salts_w :
    1 ≤ cfgT.secretLength ∧
    ∃ s p1, st1c.cachedSecret = some s ∧
      t1c = tokenize zeroDigest s (randomString rngZero p1 cfgT.saltLength) ∧
      st1c.rngPos = p1 + bytesNeeded cfgT.saltLength ∧
      t2c = tokenize zeroDigest s (randomString rngZero st1c.rngPos cfgT.saltLength) ∧
      st2c.rngPos = st1c.rngPos + bytesNeeded cfgT.saltLength :=
  ⟨by decide,
   csrfTokenA_two_calls_fresh_salts zeroDigest cfgT rngZero stA0 t1c t2c st1c st2c
     (by decide) (by decide) (by decide)⟩

end ElysiaCsrf
